import Mathlib

set_option maxRecDepth 10000

/-!
Verification of the termui library (terminal UI framebuffer, input decoder,
event loop) against its natural-language specification.

The C++ sources are shallowly embedded: C++ integer types become Nat/Int,
strings of UTF-32 codepoints become lists of Nat, buffers of bytes become
lists of Nat, stateful loops become explicit state passing, and fallible
operations return Option.
-/

namespace Termui

/-! ## Event constants, from termui.h (class Event) -/

def ctrlMask : Nat := 0x40000000
def altMask : Nat := 0x20000000
def shiftMask : Nat := 0x10000000
def specialMask : Nat := 0x08000000

def kEscape : Nat := 27

def kArrowUp : Nat := specialMask ||| 0x1
def kArrowDown : Nat := specialMask ||| 0x2
def kArrowRight : Nat := specialMask ||| 0x3
def kArrowLeft : Nat := specialMask ||| 0x4
def kInsert : Nat := specialMask ||| 0x5
def kDelete : Nat := specialMask ||| 0x6
def kEnd : Nat := specialMask ||| 0x7
def kHome : Nat := specialMask ||| 0x8
def kPageUp : Nat := specialMask ||| 0x9
def kPageDown : Nat := specialMask ||| 0xa
def kKeypadCenter : Nat := specialMask ||| 0xb

def kF1 : Nat := specialMask ||| 0x101
def kF2 : Nat := specialMask ||| 0x102
def kF3 : Nat := specialMask ||| 0x103
def kF4 : Nat := specialMask ||| 0x104
def kF5 : Nat := specialMask ||| 0x105
def kF6 : Nat := specialMask ||| 0x106
def kF7 : Nat := specialMask ||| 0x107
def kF8 : Nat := specialMask ||| 0x108
def kF9 : Nat := specialMask ||| 0x109
def kF10 : Nat := specialMask ||| 0x10a
def kF11 : Nat := specialMask ||| 0x10b
def kF12 : Nat := specialMask ||| 0x10c

def kShiftArrowUp : Nat := shiftMask ||| kArrowUp
def kShiftArrowDown : Nat := shiftMask ||| kArrowDown
def kShiftArrowRight : Nat := shiftMask ||| kArrowRight
def kShiftArrowLeft : Nat := shiftMask ||| kArrowLeft
def kShiftDelete : Nat := shiftMask ||| kDelete
def kShiftEnd : Nat := shiftMask ||| kEnd
def kShiftHome : Nat := shiftMask ||| kHome
def kShiftEnter : Nat := shiftMask ||| 0xfe
def kShiftTab : Nat := shiftMask ||| 0xff

def kAltArrowUp : Nat := altMask ||| kArrowUp
def kAltArrowDown : Nat := altMask ||| kArrowDown
def kAltArrowRight : Nat := altMask ||| kArrowRight
def kAltArrowLeft : Nat := altMask ||| kArrowLeft
def kAltInsert : Nat := altMask ||| kInsert
def kAltDelete : Nat := altMask ||| kDelete
def kAltEnd : Nat := altMask ||| kEnd
def kAltHome : Nat := altMask ||| kHome
def kAltPageUp : Nat := altMask ||| kPageUp
def kAltPageDown : Nat := altMask ||| kPageDown

def kCtrlArrowUp : Nat := ctrlMask ||| kArrowUp
def kCtrlArrowDown : Nat := ctrlMask ||| kArrowDown
def kCtrlArrowRight : Nat := ctrlMask ||| kArrowRight
def kCtrlArrowLeft : Nat := ctrlMask ||| kArrowLeft
def kCtrlInsert : Nat := ctrlMask ||| kInsert
def kCtrlDelete : Nat := ctrlMask ||| kDelete
def kCtrlEnd : Nat := ctrlMask ||| kEnd
def kCtrlHome : Nat := ctrlMask ||| kHome
def kCtrlPageUp : Nat := ctrlMask ||| kPageUp
def kCtrlPageDown : Nat := ctrlMask ||| kPageDown

/-- Event::fromCtrl from termui.h: ctrlMask | ('A' + letterOffset). -/
def eventFromCtrl (letterOffset : Nat) : Nat := ctrlMask ||| (65 + letterOffset)

/-! ## Escape sequence decoder, from termui_input_esc_seq.inl

The generated parser implementation (the branch compiled into termui.cpp):
a nested switch on successive bytes, guarded by the available size. A match
arm on a byte with the list tail present models the pair of checks
(size >= n, data[n-1] == byte). Returning 0 in C (no sequence identified,
consumed unset) is modelled by none. -/

def identify_esc_seq : List Nat → Option (Nat × Nat)
  | 79 :: tail =>  -- 'O'
    match tail with
    | 65 :: _ => some (kArrowUp, 2)       -- 'A'
    | 66 :: _ => some (kArrowDown, 2)     -- 'B'
    | 67 :: _ => some (kArrowRight, 2)    -- 'C'
    | 68 :: _ => some (kArrowLeft, 2)     -- 'D'
    | 70 :: _ => some (kEnd, 2)           -- 'F'
    | 72 :: _ => some (kHome, 2)          -- 'H'
    | 80 :: _ => some (kF1, 2)            -- 'P'
    | 81 :: _ => some (kF2, 2)            -- 'Q'
    | 82 :: _ => some (kF3, 2)            -- 'R'
    | 83 :: _ => some (kF4, 2)            -- 'S'
    | 77 :: _ => some (kShiftEnter, 2)    -- 'M'
    | _ => none
  | 91 :: tail =>  -- '['
    match tail with
    | 50 :: t2 =>  -- '2'
      match t2 with
      | 126 :: _ => some (kInsert, 3)             -- '~'
      | 48 :: 126 :: _ => some (kF9, 4)           -- '0' '~'
      | 49 :: 126 :: _ => some (kF10, 4)          -- '1' '~'
      | 51 :: 126 :: _ => some (kF11, 4)          -- '3' '~'
      | 52 :: 126 :: _ => some (kF12, 4)          -- '4' '~'
      | 59 :: 49 :: 126 :: _ => some (kAltInsert, 5)   -- ';' '1' '~'
      | 59 :: 53 :: 126 :: _ => some (kCtrlInsert, 5)  -- ';' '5' '~'
      | _ => none
    | 51 :: t2 =>  -- '3'
      match t2 with
      | 126 :: _ => some (kDelete, 3)
      | 59 :: 50 :: 126 :: _ => some (kShiftDelete, 5)
      | 59 :: 49 :: 126 :: _ => some (kAltDelete, 5)
      | 59 :: 53 :: 126 :: _ => some (kCtrlDelete, 5)
      | _ => none
    | 53 :: t2 =>  -- '5'
      match t2 with
      | 126 :: _ => some (kPageUp, 3)
      | 59 :: 49 :: 126 :: _ => some (kAltPageUp, 5)
      | 59 :: 53 :: 126 :: _ => some (kCtrlPageUp, 5)
      | _ => none
    | 54 :: t2 =>  -- '6'
      match t2 with
      | 126 :: _ => some (kPageDown, 3)
      | 59 :: 49 :: 126 :: _ => some (kAltPageDown, 5)
      | 59 :: 53 :: 126 :: _ => some (kCtrlPageDown, 5)
      | _ => none
    | 69 :: _ => some (kKeypadCenter, 2)  -- 'E'
    | 49 :: t2 =>  -- '1'
      match t2 with
      | 53 :: 126 :: _ => some (kF5, 4)   -- '5' '~'
      | 55 :: 126 :: _ => some (kF6, 4)   -- '7' '~'
      | 56 :: 126 :: _ => some (kF7, 4)   -- '8' '~'
      | 57 :: 126 :: _ => some (kF8, 4)   -- '9' '~'
      | 59 :: 50 :: t4 =>  -- ';' '2'
        match t4 with
        | 65 :: _ => some (kShiftArrowUp, 5)
        | 66 :: _ => some (kShiftArrowDown, 5)
        | 67 :: _ => some (kShiftArrowRight, 5)
        | 68 :: _ => some (kShiftArrowLeft, 5)
        | 70 :: _ => some (kShiftEnd, 5)
        | 72 :: _ => some (kShiftHome, 5)
        | _ => none
      | 59 :: 49 :: t4 =>  -- ';' '1'
        match t4 with
        | 65 :: _ => some (kAltArrowUp, 5)
        | 66 :: _ => some (kAltArrowDown, 5)
        | 67 :: _ => some (kAltArrowRight, 5)
        | 68 :: _ => some (kAltArrowLeft, 5)
        | 70 :: _ => some (kAltEnd, 5)
        | 72 :: _ => some (kAltHome, 5)
        | _ => none
      | 59 :: 53 :: t4 =>  -- ';' '5'
        match t4 with
        | 65 :: _ => some (kCtrlArrowUp, 5)
        | 66 :: _ => some (kCtrlArrowDown, 5)
        | 67 :: _ => some (kCtrlArrowRight, 5)
        | 68 :: _ => some (kCtrlArrowLeft, 5)
        | 70 :: _ => some (kCtrlEnd, 5)
        | 72 :: _ => some (kCtrlHome, 5)
        | _ => none
      | _ => none
    | 90 :: _ => some (kShiftTab, 2)  -- 'Z'
    | _ => none
  | _ => none

/-- The fixed table of recognised sequences, from the keyDefinitions array
in termui_input_esc_seq.inl (event, escape bytes after the initial ESC). -/
def keyDefinitions : List (Nat × List Nat) :=
  [ (kArrowUp, [79, 65]), (kArrowDown, [79, 66]),
    (kArrowRight, [79, 67]), (kArrowLeft, [79, 68]),
    (kInsert, [91, 50, 126]), (kDelete, [91, 51, 126]),
    (kEnd, [79, 70]), (kHome, [79, 72]),
    (kPageUp, [91, 53, 126]), (kPageDown, [91, 54, 126]),
    (kKeypadCenter, [91, 69]),
    (kF1, [79, 80]), (kF2, [79, 81]), (kF3, [79, 82]), (kF4, [79, 83]),
    (kF5, [91, 49, 53, 126]), (kF6, [91, 49, 55, 126]),
    (kF7, [91, 49, 56, 126]), (kF8, [91, 49, 57, 126]),
    (kF9, [91, 50, 48, 126]), (kF10, [91, 50, 49, 126]),
    (kF11, [91, 50, 51, 126]), (kF12, [91, 50, 52, 126]),
    (kShiftArrowUp, [91, 49, 59, 50, 65]),
    (kShiftArrowDown, [91, 49, 59, 50, 66]),
    (kShiftArrowRight, [91, 49, 59, 50, 67]),
    (kShiftArrowLeft, [91, 49, 59, 50, 68]),
    (kShiftDelete, [91, 51, 59, 50, 126]),
    (kShiftEnd, [91, 49, 59, 50, 70]),
    (kShiftHome, [91, 49, 59, 50, 72]),
    (kShiftEnter, [79, 77]), (kShiftTab, [91, 90]),
    (kAltArrowUp, [91, 49, 59, 49, 65]),
    (kAltArrowDown, [91, 49, 59, 49, 66]),
    (kAltArrowRight, [91, 49, 59, 49, 67]),
    (kAltArrowLeft, [91, 49, 59, 49, 68]),
    (kAltInsert, [91, 50, 59, 49, 126]),
    (kAltDelete, [91, 51, 59, 49, 126]),
    (kAltEnd, [91, 49, 59, 49, 70]),
    (kAltHome, [91, 49, 59, 49, 72]),
    (kAltPageUp, [91, 53, 59, 49, 126]),
    (kAltPageDown, [91, 54, 59, 49, 126]),
    (kCtrlArrowUp, [91, 49, 59, 53, 65]),
    (kCtrlArrowDown, [91, 49, 59, 53, 66]),
    (kCtrlArrowRight, [91, 49, 59, 53, 67]),
    (kCtrlArrowLeft, [91, 49, 59, 53, 68]),
    (kCtrlInsert, [91, 50, 59, 53, 126]),
    (kCtrlDelete, [91, 51, 59, 53, 126]),
    (kCtrlEnd, [91, 49, 59, 53, 70]),
    (kCtrlHome, [91, 49, 59, 53, 72]),
    (kCtrlPageUp, [91, 53, 59, 53, 126]),
    (kCtrlPageDown, [91, 54, 59, 53, 126]) ]

/-! ## Input decoder pass, from TermUi::readTtyHandler (termui.cpp) and
ScopedBufferedTty::rxC32 (termui_internal.h)

The rx buffer is a list of bytes. rxC32 decodes one UTF-8 codepoint at the
head of the buffer via std::mbrtoc32; the three outcomes of that libc call
(complete codepoint, incomplete sequence, invalid byte) are modelled by a
standard UTF-8 head decoder. readTtyHandler loops: decode a codepoint;
0 stops the pass; 1..26 is a Ctrl event; 27 consults identify_esc_seq on
the rest of the buffer (consuming the matched bytes on success, emitting a
bare Escape otherwise); anything else is a plain character event. -/

inductive Utf8Res where
  | ok (cp : Nat) (n : Nat)
  | needMore
  | invalid
deriving DecidableEq

def isCont (b : Nat) : Bool := 0x80 ≤ b && b < 0xC0

def utf8Head : List Nat → Utf8Res
  | [] => .needMore
  | b :: rest =>
    if b < 0x80 then .ok b 1
    else if b < 0xC2 then .invalid
    else if b < 0xE0 then
      match rest with
      | [] => .needMore
      | b1 :: _ =>
        if isCont b1 then .ok ((b - 0xC0) * 64 + (b1 - 0x80)) 2 else .invalid
    else if b < 0xF0 then
      match rest with
      | [] => .needMore
      | [b1] => if isCont b1 then .needMore else .invalid
      | b1 :: b2 :: _ =>
        if isCont b1 && isCont b2 then
          .ok ((b - 0xE0) * 4096 + (b1 - 0x80) * 64 + (b2 - 0x80)) 3
        else .invalid
    else if b < 0xF5 then
      match rest with
      | [] => .needMore
      | [b1] => if isCont b1 then .needMore else .invalid
      | [b1, b2] => if isCont b1 && isCont b2 then .needMore else .invalid
      | b1 :: b2 :: b3 :: _ =>
        if isCont b1 && isCont b2 && isCont b3 then
          .ok ((b - 0xF0) * 262144 + (b1 - 0x80) * 4096
               + (b2 - 0x80) * 64 + (b3 - 0x80)) 4
        else .invalid
    else .invalid

/-- ScopedBufferedTty::rxC32: returns the decoded codepoint (0 when the
buffer is empty, the sequence is incomplete, or the head byte is invalid)
together with the remaining buffer. -/
def rxC32 (buf : List Nat) : Nat × List Nat :=
  match buf with
  | [] => (0, [])
  | _ =>
    match utf8Head buf with
    | .ok cp n => (cp, buf.drop n)
    | .needMore => (0, buf)
    | .invalid => (0, buf.drop 1)

structure PassResult where
  events : List Nat
  buffer : List Nat
deriving DecidableEq

/-- One iteration structure of the readTtyHandler while loop, with fuel
(each productive iteration consumes at least one buffered byte). With no
new data arriving from the tty, rxFd contributes nothing. -/
def readTtyGo : Nat → List Nat → List Nat → PassResult
  | 0, buf, evs => ⟨evs, buf⟩
  | fuel + 1, buf, evs =>
    let r := rxC32 buf
    if r.1 = 0 then ⟨evs, r.2⟩
    else if r.1 ≤ 26 then readTtyGo fuel r.2 (evs ++ [eventFromCtrl (r.1 - 1)])
    else if r.1 ≠ 27 then readTtyGo fuel r.2 (evs ++ [r.1])
    else
      match identify_esc_seq r.2 with
      | some (ev, consumed) => readTtyGo fuel (r.2.drop consumed) (evs ++ [ev])
      | none => readTtyGo fuel r.2 (evs ++ [kEscape])

/-- One pass of TermUi::readTtyHandler over a buffer, assuming the tty
delivers no further bytes during the pass. -/
def readTtyPass (buf : List Nat) : PassResult :=
  readTtyGo (buf.length + 1) buf []

/-! ## Colour / effect / inline-format model, from termui.h -/

def kBold : Nat := 2          -- 1 << 1
def kItalic : Nat := 8        -- 1 << 3
def kUnderline : Nat := 16    -- 1 << 4
def kCrossedOut : Nat := 512  -- 1 << 9

def u32ValueMask : Nat := 0x1FFFFF
def u32EffectMask : Nat := 0x40000000
def u32ColorFgMask : Nat := 0x20000000
def u32ColorBgMask : Nat := 0x10000000
/-- invalidUnicodeMask = ~valueMask on 32 bits. -/
def u32InvalidMask : Nat := 0xFFE00000

def isU32Format (v : Nat) : Bool := v &&& u32InvalidMask ≠ 0
def isEffectV (v : Nat) : Bool := v &&& u32EffectMask ≠ 0
def isColorFgV (v : Nat) : Bool := v &&& u32ColorFgMask ≠ 0
def isColorBgV (v : Nat) : Bool := v &&& u32ColorBgMask ≠ 0
def getU32Val (v : Nat) : Nat := v &&& u32ValueMask
def buildEffect (e : Nat) : Nat := e ||| u32EffectMask
def buildColorFg (c : Nat) : Nat := c ||| u32ColorFgMask
def buildColorBg (c : Nat) : Nat := c ||| u32ColorBgMask

/-! ## Framebuffer and painters, from termui.h / termui.cpp

Colours are their raw uint32 encodings (Color::fromPalette p = p); the
default foreground is palette 7 and the default background palette 0, as
set by the TermUi constructor. Painter string arguments are the UTF-32
codepoint lists produced by toU32String. -/

structure Cell where
  glyph : Nat
  effect : Nat
  colorFg : Nat
  colorBg : Nat
deriving DecidableEq, Repr

structure Grid where
  w : Int
  h : Int
  defFg : Nat
  defBg : Nat
  cells : List Cell
deriving DecidableEq, Repr

/-- Cell::reset: space glyph, no effect, the given colours. -/
def resetCell (fg bg : Nat) : Cell := ⟨32, 0, fg, bg⟩

/-- The framebuffer right after TermUi::reset on a w × h terminal. -/
def mkGrid (w h : Int) : Grid :=
  ⟨w, h, 7, 0, List.replicate (w * h).toNat (resetCell 7 0)⟩

/-- The bounds test of TermUi::addGlyph / addFString / setColors. -/
def inBoundsB (g : Grid) (y x : Int) : Bool :=
  0 ≤ x && x < g.w && 0 ≤ y && y < g.h

/-- Read the cell at (row y, column x). -/
def getCell (g : Grid) (y x : Int) : Option Cell :=
  g.cells[(y * g.w + x).toNat]?

/-- TermUi::addGlyph (termui.h): write one cell if (y,x) is in range. -/
def addGlyph (g : Grid) (y x : Int) (glyph : Nat) (fg bg e : Nat) : Grid :=
  if inBoundsB g y x then
    { g with cells := g.cells.set (y * g.w + x).toNat ⟨glyph, e, fg, bg⟩ }
  else g

/-- TermUi::addStdU32String: one addGlyph per codepoint, x incrementing.
TermUi::addString is this composed with UTF-8 decoding. -/
def addStdU32String (g : Grid) (y x : Int) (s : List Nat) (fg bg e : Nat) :
    Grid :=
  match s with
  | [] => g
  | c :: rest => addStdU32String (addGlyph g y x c fg bg e) y (x + 1) rest fg bg e

def ellipsis : Nat := 8230  -- '…'

/-- clipString (termui.cpp): assumes s.length > wantedSize. -/
def clipString (s : List Nat) (wantedSize : Nat) (clipStart : Bool) :
    List Nat :=
  if wantedSize = 0 then []
  else if clipStart then ellipsis :: s.drop (s.length - wantedSize + 1)
  else s.take (wantedSize - 1) ++ [ellipsis]

/-- std::u32string::resize(n, fill): truncate or pad. -/
def resizeList (s : List Nat) (n : Nat) (fill : Nat) : List Nat :=
  if n ≤ s.length then s.take n else s ++ List.replicate (n - s.length) fill

/-! TextAlignment (termui.h): a bitmask value; bits 0-1 are the mode
(0 left, 1 right, 2 centered), bit 2 requests clipping at the start. -/

def alignLeft : Nat := 0
def alignRight : Nat := 1
def alignCentered : Nat := 2
def alignClipStart : Nat := 4

def alignIsClipStart (a : Nat) : Bool := a &&& 4 ≠ 0
def alignMode (a : Nat) : Nat := a &&& 3

/-- C cast of a signed int value to size_t (64-bit modular wrap for the
negative values an int can hold), as used in the size comparisons of
addStringN / addStringsN. -/
def castSizeT (x : Int) : Nat :=
  if 0 ≤ x then x.toNat else (2 ^ 64 + x).toNat

/-- The string-shaping part of TermUi::addStringN: equal width passes the
string through, longer strings are clipped with an ellipsis, shorter ones
padded with spaces per the alignment mode. -/
def shapeStringN (s : List Nat) (width : Int) (a : Nat) : List Nat :=
  if s.length = castSizeT width then s
  else if s.length > castSizeT width then
    clipString s (castSizeT width) (alignIsClipStart a)
  else
    match alignMode a with
    | 0 => resizeList s (castSizeT width) 32
    | 1 => List.replicate (castSizeT width - s.length) 32 ++ s
    | 2 =>
      resizeList (List.replicate ((castSizeT width - s.length) / 2) 32 ++ s)
        (castSizeT width) 32
    | _ => s

def addStringN (g : Grid) (y x : Int) (s : List Nat) (width : Int) (a : Nat)
    (fg bg e : Nat) : Grid :=
  addStdU32String g y x (shapeStringN s width a) fg bg e

/-- The row-building part of TermUi::addStringsN: compute the field
boundaries, resolve overlaps in three passes, clip the fields, then
concatenate with space padding. Int division is C truncating division. -/
def buildStringsN (left mid right : List Nat) (width : Int) : List Nat :=
  let endLeft0 : Int := left.length
  let startMiddle0 : Int :=
    if mid.isEmpty then width
    else width.tdiv 2 - (((mid.length + 1) / 2 : Nat) : Int)
  let endLeft1 : Int :=
    if endLeft0 ≥ startMiddle0 - 1 then min endLeft0 (width.tdiv 3 - 1)
    else endLeft0
  let startMiddle1 : Int :=
    if endLeft0 ≥ startMiddle0 - 1 then max startMiddle0 (width.tdiv 3 + 1)
    else startMiddle0
  let endMiddle0 : Int := if mid.isEmpty then 0 else startMiddle1 + mid.length
  let startRight0 : Int := width - right.length
  let endMiddle1 : Int :=
    if endMiddle0 ≥ startRight0 - 1 then min endMiddle0 ((2 * width).tdiv 3 - 1)
    else endMiddle0
  let startRight1 : Int :=
    if endMiddle0 ≥ startRight0 - 1 then max startRight0 ((2 * width).tdiv 3 + 1)
    else startRight0
  let endLeft2 : Int :=
    if endLeft1 ≥ startRight1 - 1 then min endLeft1 (width.tdiv 2 - 1)
    else endLeft1
  let startRight2 : Int :=
    if endLeft1 ≥ startRight1 - 1 then max startRight1 (width.tdiv 2 + 1)
    else startRight1
  let left2 :=
    if left.length > castSizeT endLeft2 then
      clipString left (castSizeT endLeft2) false
    else left
  let mid2 :=
    if mid.length > castSizeT (endMiddle1 - startMiddle1) then
      clipString mid (castSizeT (endMiddle1 - startMiddle1)) false
    else mid
  let right2 :=
    if right.length > castSizeT (width - startRight2) then
      clipString right (castSizeT (width - startRight2)) false
    else right
  let s2 :=
    if mid2.isEmpty then left2
    else resizeList left2 (castSizeT startMiddle1) 32 ++ mid2
  resizeList s2 (castSizeT startRight2) 32 ++ right2

def addStringsN (g : Grid) (y x : Int) (left mid right : List Nat)
    (width : Int) (fg bg e : Nat) : Grid :=
  addStdU32String g y x (buildStringsN left mid right width) fg bg e

/-! ## addFString, from TermUi::addFString (termui.cpp)

The loop writes through a raw cell pointer; the model tracks the cell
indices targeted by each pointer write in a trace (the framebuffer list
update itself silently drops an out-of-range index, the C++ pointer write
does not — the trace is what the safety claim is about). -/

structure FSt where
  cells : List Cell
  trace : List Int
  ptr : Int
  width : Int
  fg : Nat
  bg : Nat
  eff : Nat
deriving DecidableEq

/-- The for loop over the formatted string. -/
def fstrChars : List Nat → FSt → FSt
  | [], st => st
  | c :: rest, st =>
    if st.width = 0 then st
    else if isU32Format c then
      if isEffectV c then fstrChars rest { st with eff := getU32Val c }
      else if isColorFgV c then fstrChars rest { st with fg := getU32Val c }
      else if isColorBgV c then fstrChars rest { st with bg := getU32Val c }
      else fstrChars rest st
    else
      fstrChars rest { st with
        cells := st.cells.set st.ptr.toNat ⟨c, st.eff, st.fg, st.bg⟩,
        trace := st.trace ++ [st.ptr],
        ptr := st.ptr + 1,
        width := st.width - 1 }

/-- The trailing while (width > 0) space-fill loop, by iteration count. -/
def fstrFillN : Nat → FSt → FSt
  | 0, st => st
  | n + 1, st =>
    fstrFillN n { st with
      cells := st.cells.set st.ptr.toNat ⟨32, st.eff, st.fg, st.bg⟩,
      trace := st.trace ++ [st.ptr],
      ptr := st.ptr + 1,
      width := st.width - 1 }

/-- TermUi::addFString, returning the updated framebuffer together with
the trace of targeted cell indices. -/
def addFStringT (g : Grid) (y x : Int) (s : List Nat) (width0 : Int) :
    Grid × List Int :=
  let width := min width0 (g.w - x)
  if inBoundsB g y x then
    let st1 := fstrChars s ⟨g.cells, [], y * g.w + x, width, g.defFg, g.defBg, 0⟩
    let st2 := fstrFillN st1.width.toNat st1
    ({ g with cells := st2.cells }, st2.trace)
  else (g, [])

def addFString (g : Grid) (y x : Int) (s : List Nat) (width : Int) : Grid :=
  (addFStringT g y x s width).1

/-! ## Markdown conversion, from U32Format::convertMarkdown (termui.cpp)

The in-place scan never writes ahead of its read index, so the function is
the pure left-to-right transformation below. Besides the transformed
string the model returns the final running effect and the list of
delimiter characters whose pairs were consumed, in order. -/

structure MdRes where
  out : List Nat
  eff : Nat
  pairs : List Nat
deriving DecidableEq

def isMdDelim (c : Nat) : Bool := c = 42 || c = 47 || c = 95 || c = 45

/-- The effectMask selection: '*' Bold, '/' Italic, '_' Underline,
otherwise CrossedOut. -/
def mdMask (c : Nat) : Nat :=
  if c = 42 then kBold
  else if c = 47 then kItalic
  else if c = 95 then kUnderline
  else kCrossedOut

def convertMarkdownGo : List Nat → Nat → MdRes
  | [], eff => ⟨[], eff, []⟩
  | [c1], eff => ⟨[c1], eff, []⟩
  | c1 :: c2 :: rest2, eff =>
    if isMdDelim c1 && c1 = c2 then
      let eff2 := eff ^^^ mdMask c1
      let r := convertMarkdownGo rest2 eff2
      ⟨buildEffect eff2 :: r.out, r.eff, c1 :: r.pairs⟩
    else
      let r := convertMarkdownGo (c2 :: rest2) eff
      ⟨c1 :: r.out, r.eff, r.pairs⟩

def convertMarkdown (s : List Nat) : List Nat := (convertMarkdownGo s 0).out

/-- TermUi::addString: UTF-8 conversion then addStdU32String; painter
inputs are modelled as the converted codepoint lists. -/
def addString (g : Grid) (y x : Int) (s : List Nat) (fg bg e : Nat) : Grid :=
  addStdU32String g y x s fg bg e

/-! ## Spec-level reference definitions (for refinement comparisons) -/

/-- Written from the spec of add_formatted_string (§4.5): iterate the
codepoints; a sentinel updates the running effect/fg/bg and writes no
cell; a plain codepoint becomes a cell with the running style,
decrementing the width; at width zero stop; fill any remaining width with
spaces in the running style. Produces the written cell sequence. -/
def fstringSpecCells : Nat → List Nat → Nat → Nat → Nat → List Cell
  | 0, _, _, _, _ => []
  | n + 1, [], fg, bg, eff => List.replicate (n + 1) ⟨32, eff, fg, bg⟩
  | n + 1, c :: rest, fg, bg, eff =>
    if isU32Format c then
      if isEffectV c then fstringSpecCells (n + 1) rest fg bg (getU32Val c)
      else if isColorFgV c then fstringSpecCells (n + 1) rest (getU32Val c) bg eff
      else if isColorBgV c then fstringSpecCells (n + 1) rest fg (getU32Val c) eff
      else fstringSpecCells (n + 1) rest fg bg eff
    else ⟨c, eff, fg, bg⟩ :: fstringSpecCells n rest fg bg eff

/-- Overwrite consecutive cells of a framebuffer starting at index i. -/
def overwriteFrom (cells : List Cell) (i : Nat) : List Cell → List Cell
  | [] => cells
  | c :: cs => overwriteFrom (cells.set i c) (i + 1) cs

/-- The n consecutive cell indices starting at p. -/
def traceRange (p : Int) : Nat → List Int
  | 0 => []
  | n + 1 => p :: traceRange (p + 1) n

/-- Whether a string has no adjacent identical pair of markdown delimiter
characters (the strings on which convertMarkdown acts as the identity). -/
def noMdPair : List Nat → Bool
  | c1 :: c2 :: r => !(isMdDelim c1 && c1 = c2) && noMdPair (c2 :: r)
  | _ => true

/-- XOR of the effect masks of a list of delimiter characters. -/
def xorMasks (l : List Nat) : Nat := l.foldr (fun c a => mdMask c ^^^ a) 0

/-- The parity contribution of n toggles of a single mask. -/
def parityBit (n m : Nat) : Nat := if n % 2 = 0 then 0 else m

end Termui

namespace Csys

/-! ## Event-loop core, from csys.h / csys.cpp

The loop-relevant state of MainPollHandler is the atomic exit flag and the
stored exit status. Loop activity is modelled as a finite schedule of
wakeup events: an asynchronous requestTermination, or a signal number read
from the signal-fd. The registered signal callbacks are modelled by the
list of signal numbers having one (the callbacks themselves only run user
code and do not touch the loop state). -/

structure LoopState where
  exitRequested : Bool
  exitStatus : Int
deriving DecidableEq

/-- MainPollHandler::setRequestTermination: m_exitRequested.exchange(true);
only the caller that finds it false records its status. -/
def setRequestTermination (st : LoopState) (status : Int) : LoopState :=
  if st.exitRequested then st else ⟨true, status⟩

/-- MainPollHandler::requestTermination: set the flag and status, then
write to the wakeup eventfd (which carries no loop state). -/
def requestTermination (st : LoopState) (status : Int) : LoopState :=
  setRequestTermination st status

/-- MainPollHandler::signalHandlerDispatch for one signalfd_siginfo read:
once termination is requested nothing happens; a registered callback runs
user code; an unhandled signal requests termination with its number. -/
def signalDispatch (cbks : List Int) (st : LoopState) (signo : Int) :
    LoopState :=
  if st.exitRequested then st
  else if signo ∈ cbks then st
  else setRequestTermination st signo

inductive LoopOp where
  | reqTerm (status : Int)
  | sig (signo : Int)
deriving DecidableEq

def applyLoopOp (cbks : List Int) (st : LoopState) : LoopOp → LoopState
  | .reqTerm status => requestTermination st status
  | .sig signo => signalDispatch cbks st signo

/-- MainPollHandler::runForever against a finite schedule of wakeups:
test the exit flag, else wait and dispatch the next event; none when the
schedule ends with no termination requested. -/
def runForever (cbks : List Int) (st : LoopState) : List LoopOp → Option Int
  | [] => if st.exitRequested then some st.exitStatus else none
  | op :: rest =>
    if st.exitRequested then some st.exitStatus
    else runForever cbks (applyLoopOp cbks st op) rest

/-! ## Poll::add, from csys.cpp

The monitored-fd map is modelled by its key list (callbacks only run user
code). The validity of the fd and the outcome of the epoll_ctl
registration are the two external inputs. A raised exception is modelled
by some message in the first component; the second component is the map
after the call. -/

structure PollState where
  fds : List Int
deriving DecidableEq

def pollAdd (st : PollState) (fd : Int) (fdValid : Bool) (kernelOk : Bool) :
    Option String × PollState :=
  if !fdValid then (some "poll: trying to add invalid fd", st)
  else if fd ∈ st.fds then (some "poll: conflict when adding fd", st)
  else
    let st1 : PollState := ⟨st.fds ++ [fd]⟩
    if kernelOk then (none, st1)
    else (some "epoll_ctl(EPOLL_CTL_ADD)", ⟨st1.fds.erase fd⟩)

end Csys

namespace Termui

/-! ## Claims C1 and C5: escape-sequence decoding -/

/-- C1 counterexample. Feeding the three bytes 0x1B '[' '1' does NOT leave
the decoder silent with the bytes buffered: the pass emits the events
Escape, '[', '1' and empties the buffer, because identify_esc_seq makes no
distinction between an incomplete prefix and an unrecognised sequence. -/
theorem esc_incomplete_prefix_counterexample :
    ¬ ((readTtyPass [27, 91, 49]).events = [] ∧
       (readTtyPass [27, 91, 49]).buffer = [27, 91, 49]) := by
  decide

/-- C1 amended: identify_esc_seq returns no match (0) on every proper
non-empty prefix of a recognised sequence, and the caller treats that
exactly like an unrecognised sequence: one pass over 0x1B '[' '1' emits a
bare Escape followed by the character events '[' and '1' and leaves the
read buffer empty (nothing is retried on the next tick). -/
theorem esc_incomplete_prefix_amended :
    (∀ kd ∈ keyDefinitions, ∀ n, n < kd.2.length → 0 < n →
      identify_esc_seq (kd.2.take n) = none) ∧
    readTtyPass [27, 91, 49] = ⟨[kEscape, 91, 49], []⟩ := by
  decide

/-- C1 amended witness: the prefix [0x5B] of the Ctrl+ArrowLeft sequence
CSI 1;5D is not matched. -/
theorem esc_incomplete_prefix_amended_witness :
    identify_esc_seq ([91, 49, 59, 53, 68].take 1) = none :=
  esc_incomplete_prefix_amended.1 (kCtrlArrowLeft, [91, 49, 59, 53, 68])
    (by decide) 1 (by decide) (by decide)

/-- C5: every complete sequence of the fixed table is identified as
exactly the table's event, consuming exactly the sequence's byte length;
and one decoder pass over the six bytes 0x1B '[' '1' ';' '5' 'D' emits
exactly one event, Ctrl+ArrowLeft, and leaves the read buffer empty. -/
theorem esc_complete_sequences_identified :
    (∀ kd ∈ keyDefinitions,
      identify_esc_seq kd.2 = some (kd.1, kd.2.length)) ∧
    readTtyPass [27, 91, 49, 59, 53, 68] = ⟨[kCtrlArrowLeft], []⟩ := by
  decide

/-- C5 witness: the Ctrl+ArrowLeft table entry is identified. -/
theorem esc_complete_sequences_identified_witness :
    identify_esc_seq [91, 49, 59, 53, 68] = some (kCtrlArrowLeft, 5) :=
  esc_complete_sequences_identified.1 (kCtrlArrowLeft, [91, 49, 59, 53, 68])
    (by decide)

/-! ## Claim C3: out-of-range painters -/

theorem addGlyph_oob (g : Grid) (y x : Int) (c fg bg e : Nat)
    (h : inBoundsB g y x = false) : addGlyph g y x c fg bg e = g := by
  simp [addGlyph, h]

theorem addStdU32String_oob :
    ∀ (s : List Nat) (g : Grid) (y x : Int) (fg bg e : Nat),
      y < 0 ∨ g.h ≤ y ∨ g.w ≤ x → addStdU32String g y x s fg bg e = g
  | [], _, _, _, _, _, _, _ => rfl
  | c :: rest, g, y, x, fg, bg, e, h => by
    have hb : inBoundsB g y x = false := by
      simp only [inBoundsB, Bool.and_eq_false_iff, decide_eq_false_iff_not,
        not_le, not_lt]
      omega
    rw [addStdU32String, addGlyph_oob g y x c fg bg e hb]
    exact addStdU32String_oob rest g y (x + 1) fg bg e (by omega)

/-- C3 counterexample. addString with a negative x on a valid row does
change the framebuffer: on a 3×1 grid, addString(0, -1, "ab") writes the
glyph 'b' into column 0 (each cell is clipped individually, the whole
call is not rejected). -/
theorem painters_out_of_range_counterexample :
    addString (mkGrid 3 1) 0 (-1) [97, 98] 7 0 0 ≠ mkGrid 3 1 := by
  decide

/-- C3 amended: addGlyph and addFString leave the framebuffer unchanged
whenever their starting (y,x) is out of range, and the string painters
(addString, addStringN, addStringsN) leave it unchanged when the row is
out of range or x ≥ width; with a negative x on a valid row the string
painters clip per cell, so glyphs reaching column 0 are still written. -/
theorem painters_out_of_range_amended :
    (∀ (g : Grid) (y x : Int) (c fg bg e : Nat), inBoundsB g y x = false →
      addGlyph g y x c fg bg e = g) ∧
    (∀ (g : Grid) (y x : Int) (s : List Nat) (w : Int),
      inBoundsB g y x = false → addFString g y x s w = g) ∧
    (∀ (g : Grid) (y x : Int) (s : List Nat) (fg bg e : Nat),
      y < 0 ∨ g.h ≤ y ∨ g.w ≤ x → addString g y x s fg bg e = g) ∧
    (∀ (g : Grid) (y x : Int) (s : List Nat) (w : Int) (a fg bg e : Nat),
      y < 0 ∨ g.h ≤ y ∨ g.w ≤ x → addStringN g y x s w a fg bg e = g) ∧
    (∀ (g : Grid) (y x : Int) (l m r : List Nat) (w : Int) (fg bg e : Nat),
      y < 0 ∨ g.h ≤ y ∨ g.w ≤ x → addStringsN g y x l m r w fg bg e = g) := by
  refine ⟨fun g y x c fg bg e h => addGlyph_oob g y x c fg bg e h,
    fun g y x s w h => ?_, fun g y x s fg bg e h => addStdU32String_oob s g y x fg bg e h,
    fun g y x s w a fg bg e h => addStdU32String_oob _ g y x fg bg e h,
    fun g y x l m r w fg bg e h => addStdU32String_oob _ g y x fg bg e h⟩
  simp [addFString, addFStringT, h]

/-- C3 amended witness: a write with row 5 on a 2×2 grid is a no-op for
addGlyph, addFString and addString. -/
theorem painters_out_of_range_amended_witness :
    addGlyph (mkGrid 2 2) 5 0 97 7 0 0 = mkGrid 2 2 ∧
    addFString (mkGrid 2 2) 5 0 [97] 1 = mkGrid 2 2 ∧
    addString (mkGrid 2 2) 5 0 [97] 7 0 0 = mkGrid 2 2 :=
  ⟨painters_out_of_range_amended.1 (mkGrid 2 2) 5 0 97 7 0 0 (by decide),
   painters_out_of_range_amended.2.1 (mkGrid 2 2) 5 0 [97] 1 (by decide),
   painters_out_of_range_amended.2.2.1 (mkGrid 2 2) 5 0 [97] 7 0 0
     (by right; left; decide)⟩

/-! ## Claim C4: addFString write bounds -/

/-- C4: the code is wrong. With a negative width the loop guard
(width == 0) never fires, so on a 4×1 framebuffer the in-bounds call
addFString(0, 2, "ABC", -1) targets the cell indices 2, 3 and 4 — index 4
is one past the end of the 4-cell framebuffer, an out-of-bounds pointer
write in the C++ code. -/
theorem addFString_neg_width_oob_input :
    (addFStringT (mkGrid 4 1) 0 2 [65, 66, 67] (-1)).2 = [2, 3, 4] ∧
    (4 : Int) ∈ (addFStringT (mkGrid 4 1) 0 2 [65, 66, 67] (-1)).2 ∧
    (mkGrid 4 1).cells.length = 4 := by
  decide

/-! ## Claim C2: three-zone layout of addStringsN -/

theorem castSizeT_ofNat (n : Nat) : castSizeT n = n := by
  simp [castSizeT]

theorem castSizeT_nonneg {x : Int} (h : 0 ≤ x) : castSizeT x = x.toNat :=
  if_pos h

/-- The layout of buildStringsN when no overlap-resolution pass fires:
the middle field starts exactly at column
width.tdiv 2 - (mid.length + 1) / 2 (floored, as the C integer division
does), and the two gaps are filled with spaces. -/
theorem buildStringsN_no_overlap (left mid right : List Nat)
    (width sm sr : Int)
    (hsm : sm = width.tdiv 2 - (((mid.length + 1) / 2 : Nat) : Int))
    (hsr : sr = width - (right.length : Int))
    (hmid : mid ≠ [])
    (h1 : (left.length : Int) < sm - 1)
    (h2 : sm + (mid.length : Int) < sr - 1) :
    buildStringsN left mid right width =
      left ++ List.replicate (sm.toNat - left.length) 32 ++ mid ++
        List.replicate (sr.toNat - (sm.toNat + mid.length)) 32 ++ right ∧
    (left ++ List.replicate (sm.toNat - left.length) 32).length = sm.toNat := by
  subst hsm
  subst hsr
  have hme : mid.isEmpty = false := by
    cases mid with
    | nil => exact absurd rfl hmid
    | cons a t => rfl
  have hM : 1 ≤ mid.length := List.length_pos.mpr hmid
  have hc1 : ¬ ((left.length : Int) ≥
      width.tdiv 2 - (((mid.length + 1) / 2 : Nat) : Int) - 1) := by omega
  have hc2 : ¬ (width.tdiv 2 - (((mid.length + 1) / 2 : Nat) : Int) +
      (mid.length : Int) ≥ width - (right.length : Int) - 1) := by omega
  have hc3 : ¬ ((left.length : Int) ≥ width - (right.length : Int) - 1) := by
    omega
  have hsm0 : (0 : Int) ≤ width.tdiv 2 - (((mid.length + 1) / 2 : Nat) : Int) := by
    omega
  have hsr0 : (0 : Int) ≤ width - (right.length : Int) := by omega
  have hr1 : ¬ ((width.tdiv 2 -
      (((mid.length + 1) / 2 : Nat) : Int)).toNat ≤ left.length) := by omega
  constructor
  · simp only [buildStringsN, hme, Bool.false_eq_true, if_false, hc1, hc2,
      hc3, castSizeT_ofNat, add_sub_cancel_left, sub_sub_cancel,
      lt_irrefl, castSizeT_nonneg hsm0, castSizeT_nonneg hsr0,
      resizeList, hr1, ite_false]
    have hr2 : ¬ ((width - (right.length : Int)).toNat ≤
        (left ++ List.replicate ((width.tdiv 2 -
          (((mid.length + 1) / 2 : Nat) : Int)).toNat - left.length) 32 ++ mid).length) := by
      simp only [List.length_append, List.length_replicate]
      omega
    rw [if_neg hr2]
    have hcount : (width - (right.length : Int)).toNat -
        (left ++ List.replicate ((width.tdiv 2 -
          (((mid.length + 1) / 2 : Nat) : Int)).toNat - left.length) 32 ++ mid).length =
        (width - (right.length : Int)).toNat -
          ((width.tdiv 2 - (((mid.length + 1) / 2 : Nat) : Int)).toNat + mid.length) := by
      simp only [List.length_append, List.length_replicate]
      omega
    rw [hcount]
  · simp only [List.length_append, List.length_replicate]
    omega

/-- C2 counterexample. On a 20×1 framebuffer with default colours,
addStringsN(0, 0, "L", "MID", "R", 20) does not produce the claimed row
"L" + 7 spaces + "MID" + 7 spaces + "R" (that is only 19 cells; the
second gap actually has 8 spaces). And the claimed start column
floor(width/2) - ceil((M+1)/2) is wrong for an even middle length: with
middle "AB" on width 20 it predicts column 8 while the code places "AB"
at column 9, because the code floors (M+1)/2. -/
theorem addStringsN_layout_counterexample :
    ((addStringsN (mkGrid 20 1) 0 0 [76] [77, 73, 68] [82] 20 7 0 0).cells.map
        Cell.glyph ≠
      [76] ++ List.replicate 7 32 ++ [77, 73, 68] ++
        List.replicate 7 32 ++ [82] ++ [32]) ∧
    buildStringsN [] [65, 66] [] 20 ≠
      List.replicate 8 32 ++ [65, 66] ++ List.replicate 10 32 := by
  decide

/-- C2 amended: the concrete call produces "L", 7 spaces, "MID", 8
spaces, "R"; in general, with a non-empty middle string of codepoint
length M and no overlap-resolution pass firing, the middle field starts
at column floor(width/2) - floor((M+1)/2) (the code floors (M+1)/2
rather than taking its ceiling). -/
theorem addStringsN_layout_amended :
    ((addStringsN (mkGrid 20 1) 0 0 [76] [77, 73, 68] [82] 20 7 0 0).cells.map
        Cell.glyph =
      [76] ++ List.replicate 7 32 ++ [77, 73, 68] ++
        List.replicate 8 32 ++ [82]) ∧
    (∀ (left mid right : List Nat) (width sm sr : Int),
      sm = width.tdiv 2 - (((mid.length + 1) / 2 : Nat) : Int) →
      sr = width - (right.length : Int) →
      mid ≠ [] →
      (left.length : Int) < sm - 1 →
      sm + (mid.length : Int) < sr - 1 →
      buildStringsN left mid right width =
        left ++ List.replicate (sm.toNat - left.length) 32 ++ mid ++
          List.replicate (sr.toNat - (sm.toNat + mid.length)) 32 ++ right ∧
      (left ++ List.replicate (sm.toNat - left.length) 32).length = sm.toNat) :=
  ⟨by decide,
   fun left mid right width sm sr hsm hsr hmid h1 h2 =>
     buildStringsN_no_overlap left mid right width sm sr hsm hsr hmid h1 h2⟩

/-- C2 amended witness: the footer example, through the general layout
statement: sm = 8, sr = 19 for "L"/"MID"/"R" at width 20. -/
theorem addStringsN_layout_amended_witness :
    buildStringsN [76] [77, 73, 68] [82] 20 =
      [76] ++ List.replicate 7 32 ++ [77, 73, 68] ++
        List.replicate 8 32 ++ [82] ∧
    ([76] ++ List.replicate 7 32).length = 8 :=
  addStringsN_layout_amended.2 [76] [77, 73, 68] [82] 20 8 19
    (by decide) (by decide) (by decide) (by decide) (by decide)

/-! ## Cell-level characterisation of the string painters -/

theorem addGlyph_dims (g : Grid) (y x : Int) (c fg bg e : Nat) :
    (addGlyph g y x c fg bg e).w = g.w ∧
    (addGlyph g y x c fg bg e).h = g.h ∧
    (addGlyph g y x c fg bg e).cells.length = g.cells.length := by
  unfold addGlyph
  split <;> simp

theorem cellIndex_inj {w y x y' x' : Int}
    (hx : 0 ≤ x) (hxw : x < w) (hx' : 0 ≤ x') (hxw' : x' < w)
    (hy : 0 ≤ y) (hy' : 0 ≤ y')
    (h : (y * w + x).toNat = (y' * w + x').toNat) : y = y' ∧ x = x' := by
  have hw : 0 < w := lt_of_le_of_lt hx hxw
  have h0 : 0 ≤ y * w := mul_nonneg hy hw.le
  have h0' : 0 ≤ y' * w := mul_nonneg hy' hw.le
  have heq : y * w + x = y' * w + x' := by omega
  have hyy : y = y' := by
    by_contra hne
    rcases lt_or_gt_of_ne hne with hlt | hlt
    · have h1 : (y + 1) * w ≤ y' * w :=
        mul_le_mul_of_nonneg_right (by omega) hw.le
      rw [add_one_mul] at h1
      omega
    · have h1 : (y' + 1) * w ≤ y * w :=
        mul_le_mul_of_nonneg_right (by omega) hw.le
      rw [add_one_mul] at h1
      omega
  subst hyy
  exact ⟨rfl, by omega⟩

theorem cellIndex_lt {w h y x : Int}
    (hx : 0 ≤ x) (hxw : x < w) (hy : 0 ≤ y) (hyh : y < h) :
    (y * w + x).toNat < (w * h).toNat := by
  have hw : 0 < w := lt_of_le_of_lt hx hxw
  have h1 : (y + 1) * w ≤ h * w :=
    mul_le_mul_of_nonneg_right (by omega) hw.le
  rw [add_one_mul] at h1
  have h2 : w * h = h * w := mul_comm w h
  have h3 : 0 ≤ y * w := mul_nonneg hy hw.le
  omega

theorem getCell_addGlyph (g : Grid) (y x : Int) (c fg bg e : Nat)
    (hlen : g.cells.length = (g.w * g.h).toNat)
    (y' x' : Int) (hy' : 0 ≤ y') (hy'h : y' < g.h)
    (hx' : 0 ≤ x') (hx'w : x' < g.w) :
    getCell (addGlyph g y x c fg bg e) y' x' =
      if y = y' ∧ x = x' then some ⟨c, e, fg, bg⟩ else getCell g y' x' := by
  unfold addGlyph getCell inBoundsB
  by_cases hb : (0 ≤ x && x < g.w && 0 ≤ y && y < g.h) = true
  · simp only [Bool.and_eq_true, decide_eq_true_eq] at hb
    obtain ⟨⟨⟨hx, hxw⟩, hy⟩, hyh⟩ := hb
    rw [if_pos (by simp [hx, hxw, hy, hyh])]
    by_cases hco : y = y' ∧ x = x'
    · obtain ⟨rfl, rfl⟩ := hco
      rw [if_pos ⟨rfl, rfl⟩]
      simp only
      rw [List.getElem?_set]
      rw [if_pos rfl, if_pos (by rw [hlen]; exact cellIndex_lt hx hxw hy hyh)]
    · have hnn : (y * g.w + x).toNat ≠ (y' * g.w + x').toNat := fun hEq =>
        hco (cellIndex_inj hx hxw hx' hx'w hy hy' hEq)
      rw [if_neg hco]
      simp only
      rw [List.getElem?_set_ne hnn]
  · rw [if_neg (by simpa using hb)]
    rw [if_neg (fun hco => by
      obtain ⟨rfl, rfl⟩ := hco
      simp only [Bool.and_eq_true, decide_eq_true_eq, not_and] at hb
      omega)]

theorem getCell_addStdU32String :
    ∀ (s : List Nat) (g : Grid) (y x : Int) (fg bg e : Nat),
      g.cells.length = (g.w * g.h).toNat →
      ∀ (y' x' : Int), 0 ≤ y' → y' < g.h → 0 ≤ x' → x' < g.w →
      getCell (addStdU32String g y x s fg bg e) y' x' =
        if y = y' ∧ x ≤ x' ∧ x' < x + (s.length : Int) then
          some ⟨s.getD (x' - x).toNat 0, e, fg, bg⟩
        else getCell g y' x'
  | [], g, y, x, fg, bg, e, hlen, y', x', hy', hy'h, hx', hx'w => by
    rw [addStdU32String, if_neg (by
      simp only [List.length_nil, Nat.cast_zero, add_zero, not_and, not_lt]
      intro _ h
      exact h)]
  | c :: rest, g, y, x, fg, bg, e, hlen, y', x', hy', hy'h, hx', hx'w => by
    rw [addStdU32String]
    have hdims := addGlyph_dims g y x c fg bg e
    have hlen' : (addGlyph g y x c fg bg e).cells.length =
        ((addGlyph g y x c fg bg e).w * (addGlyph g y x c fg bg e).h).toNat := by
      rw [hdims.1, hdims.2.1, hdims.2.2, hlen]
    have ih := getCell_addStdU32String rest (addGlyph g y x c fg bg e) y (x + 1)
      fg bg e hlen' y' x' hy' (hdims.2.1.symm ▸ hy'h) hx' (hdims.1.symm ▸ hx'w)
    rw [ih, getCell_addGlyph g y x c fg bg e hlen y' x' hy' hy'h hx' hx'w]
    have hlc : ((c :: rest).length : Int) = (rest.length : Int) + 1 := by
      simp only [List.length_cons]
      push_cast
      ring
    by_cases h1 : y = y' ∧ x + 1 ≤ x' ∧ x' < x + 1 + (rest.length : Int)
    · obtain ⟨hh1, hh2, hh3⟩ := h1
      rw [if_pos ⟨hh1, hh2, hh3⟩, if_pos ⟨hh1, by omega, by omega⟩]
      have hidx : (x' - x).toNat = (x' - (x + 1)).toNat + 1 := by omega
      rw [hidx]
      simp [List.getD_cons_succ]
    · rw [if_neg h1]
      by_cases h2 : y = y' ∧ x = x'
      · obtain ⟨hh1, hh2⟩ := h2
        rw [if_pos ⟨hh1, hh2⟩, if_pos ⟨hh1, by omega, by omega⟩]
        have hidx : (x' - x).toNat = 0 := by omega
        rw [hidx]
        simp [List.getD_cons_zero]
      · rw [if_neg h2, if_neg (by
          intro hc
          obtain ⟨hc1, hc2, hc3⟩ := hc
          rw [hlc] at hc3
          by_cases hx1 : x + 1 ≤ x'
          · exact h1 ⟨hc1, hx1, by omega⟩
          · exact h2 ⟨hc1, by omega⟩)]

/-! ## Claim C6: addStringN clipping, padding and width -/

theorem clipString_length (s : List Nat) (n : Nat) (b : Bool)
    (h : n < s.length) : (clipString s n b).length = n := by
  unfold clipString
  split_ifs with h0 hcs
  · simp [h0]
  · simp only [List.length_cons, List.length_drop]
    omega
  · simp only [List.length_append, List.length_take, List.length_cons,
      List.length_nil]
    omega

theorem resizeList_of_lt (s : List Nat) (n f : Nat) (h : s.length < n) :
    resizeList s n f = s ++ List.replicate (n - s.length) f := by
  unfold resizeList
  rw [if_neg (by omega)]

theorem resizeList_length (s : List Nat) (n : Nat) (f : Nat) :
    (resizeList s n f).length = n := by
  unfold resizeList
  split_ifs with h
  · simp only [List.length_take]
    omega
  · simp only [List.length_append, List.length_replicate]
    omega

theorem shapeStringN_length (s : List Nat) (width : Int) (a : Nat)
    (hw : 0 ≤ width)
    (hmode : alignMode a = 0 ∨ alignMode a = 1 ∨ alignMode a = 2) :
    (shapeStringN s width a).length = width.toNat := by
  unfold shapeStringN
  rw [castSizeT_nonneg hw]
  by_cases h1 : s.length = width.toNat
  · rw [if_pos h1]
    exact h1
  · rw [if_neg h1]
    by_cases h2 : s.length > width.toNat
    · rw [if_pos h2]
      exact clipString_length s width.toNat _ h2
    · rw [if_neg h2]
      have h3 : s.length < width.toNat := by omega
      rcases hmode with hm | hm | hm <;> rw [hm]
      · exact resizeList_length s width.toNat 32
      · simp only [List.length_append, List.length_replicate]
        omega
      · exact resizeList_length _ width.toNat 32

/-- C6 counterexample. On a 2-wide row, the in-bounds call
addStringN(0, 0, "abc", 3, Left) changes only 2 framebuffer cells, not
the claimed "exactly width" = 3: writes past the right edge are clipped
per cell. -/
theorem addStringN_exact_width_counterexample :
    (((addStringN (mkGrid 2 1) 0 0 [97, 98, 99] 3 0 7 0 0).cells.zip
        (mkGrid 2 1).cells).countP (fun p => p.1 ≠ p.2) = 2) ∧
    (2 : Nat) ≠ 3 := by
  decide

/-- C6 amended: with 0 ≤ width and a valid alignment mode the shaped
string has exactly width codepoints — clipped with a single ellipsis when
the string is longer (last cell for ClipEnd, first for ClipStart,
width 0 erases), padded with spaces when shorter (Centered left pad is
(width-len)/2) — and the painter writes exactly the cells of row y from
column x through min(x+width, grid width)-1: each in-grid cell in that
span gets the shaped glyph, every other cell is untouched. -/
theorem addStringN_shape_cells :
    (∀ (s : List Nat) (width : Int) (a : Nat), 0 ≤ width →
      (alignMode a = 0 ∨ alignMode a = 1 ∨ alignMode a = 2) →
      (shapeStringN s width a).length = width.toNat ∧
      (width.toNat < s.length → alignIsClipStart a = false → 0 < width →
        shapeStringN s width a = s.take (width.toNat - 1) ++ [ellipsis]) ∧
      (width.toNat < s.length → alignIsClipStart a = true → 0 < width →
        shapeStringN s width a =
          ellipsis :: s.drop (s.length - width.toNat + 1)) ∧
      (width = 0 → shapeStringN s width a = []) ∧
      (s.length < width.toNat → alignMode a = 0 →
        shapeStringN s width a =
          s ++ List.replicate (width.toNat - s.length) 32) ∧
      (s.length < width.toNat → alignMode a = 1 →
        shapeStringN s width a =
          List.replicate (width.toNat - s.length) 32 ++ s) ∧
      (s.length < width.toNat → alignMode a = 2 →
        shapeStringN s width a =
          List.replicate ((width.toNat - s.length) / 2) 32 ++ s ++
            List.replicate
              (width.toNat - s.length - (width.toNat - s.length) / 2) 32)) ∧
    (∀ (g : Grid) (y x : Int) (s : List Nat) (width : Int) (a fg bg e : Nat),
      g.cells.length = (g.w * g.h).toNat →
      ∀ (y' x' : Int), 0 ≤ y' → y' < g.h → 0 ≤ x' → x' < g.w →
        getCell (addStringN g y x s width a fg bg e) y' x' =
          if y = y' ∧ x ≤ x' ∧
              x' < x + ((shapeStringN s width a).length : Int) then
            some ⟨(shapeStringN s width a).getD (x' - x).toNat 0, e, fg, bg⟩
          else getCell g y' x') ∧
    (shapeStringN [97, 98, 99, 100, 101, 102, 103, 104, 105, 106, 107] 10
        alignCentered =
      [97, 98, 99, 100, 101, 102, 103, 104, 105, ellipsis] ∧
     shapeStringN [97, 98, 99, 100, 101, 102, 103, 104, 105, 106, 107] 10
        (alignCentered + alignClipStart) =
      [ellipsis, 99, 100, 101, 102, 103, 104, 105, 106, 107]) := by
  refine ⟨fun s width a hw hmode => ?_,
    fun g y x s width a fg bg e hlen y' x' hy' hy'h hx' hx'w =>
      getCell_addStdU32String (shapeStringN s width a) g y x fg bg e hlen
        y' x' hy' hy'h hx' hx'w,
    by decide, by decide⟩
  refine ⟨shapeStringN_length s width a hw hmode,
    fun hlong hcs hpos => ?_, fun hlong hcs hpos => ?_, fun h0 => ?_,
    fun hshort hm => ?_, fun hshort hm => ?_, fun hshort hm => ?_⟩
  · unfold shapeStringN clipString
    rw [castSizeT_nonneg hw, if_neg (by omega), if_pos hlong, hcs]
    rw [if_neg (by omega)]
    simp
  · unfold shapeStringN clipString
    rw [castSizeT_nonneg hw, if_neg (by omega), if_pos hlong, hcs]
    rw [if_neg (by omega)]
    simp
  · subst h0
    have hc0 : castSizeT 0 = 0 := by decide
    unfold shapeStringN clipString
    rw [hc0]
    by_cases hz : s.length = 0
    · rw [if_pos hz]
      exact List.length_eq_zero.mp hz
    · rw [if_neg hz, if_pos (by omega), if_pos rfl]
  · unfold shapeStringN resizeList
    rw [castSizeT_nonneg hw, if_neg (by omega), if_neg (by omega), hm]
    rw [if_neg (by omega)]
  · unfold shapeStringN
    rw [castSizeT_nonneg hw, if_neg (by omega), if_neg (by omega), hm]
  · unfold shapeStringN
    rw [castSizeT_nonneg hw, if_neg (by omega), if_neg (by omega), hm]
    have hlt :
        (List.replicate ((width.toNat - s.length) / 2) 32 ++ s).length <
          width.toNat := by
      simp only [List.length_append, List.length_replicate]
      omega
    show resizeList (List.replicate ((width.toNat - s.length) / 2) 32 ++ s)
        width.toNat 32 = _
    rw [resizeList_of_lt _ _ _ hlt]
    simp only [List.length_append, List.length_replicate, List.append_assoc]
    have hc : width.toNat - ((width.toNat - s.length) / 2 + s.length) =
        width.toNat - s.length - (width.toNat - s.length) / 2 := by
      omega
    rw [hc]

/-- C6 amended witness: the spec scenario, through the general
statement — "abcdefghijk" at width 10, Centered, ClipEnd keeps the
prefix with a final ellipsis. -/
theorem addStringN_shape_cells_witness :
    shapeStringN [97, 98, 99, 100, 101, 102, 103, 104, 105, 106, 107] 10
        alignCentered =
      [97, 98, 99, 100, 101, 102, 103, 104, 105, 106, 107].take 9 ++
        [ellipsis] :=
  (addStringN_shape_cells.1
      [97, 98, 99, 100, 101, 102, 103, 104, 105, 106, 107] 10 alignCentered
      (by decide) (by decide)).2.1 (by decide) (by decide) (by decide)

/-! ## Claim C7: addFString against the spec description -/

theorem fspec_nil (n fg bg eff : Nat) :
    fstringSpecCells n [] fg bg eff = List.replicate n ⟨32, eff, fg, bg⟩ := by
  cases n <;> rfl

theorem fspec_length :
    ∀ (s : List Nat) (n : Nat) (fg bg eff : Nat),
      (fstringSpecCells n s fg bg eff).length = n
  | [], n, fg, bg, eff => by rw [fspec_nil, List.length_replicate]
  | c :: rest, 0, fg, bg, eff => rfl
  | c :: rest, n + 1, fg, bg, eff => by
    by_cases hf : isU32Format c = true
    · by_cases he : isEffectV c = true
      · simp only [fstringSpecCells, hf, he, if_true]
        exact fspec_length rest (n + 1) fg bg (getU32Val c)
      · by_cases hcf : isColorFgV c = true
        · simp only [fstringSpecCells, hf, he, hcf, if_true,
            Bool.false_eq_true, if_false]
          exact fspec_length rest (n + 1) (getU32Val c) bg eff
        · by_cases hcb : isColorBgV c = true
          · simp only [fstringSpecCells, hf, he, hcf, hcb, if_true,
              Bool.false_eq_true, if_false]
            exact fspec_length rest (n + 1) fg (getU32Val c) eff
          · simp only [fstringSpecCells, hf, he, hcf, hcb,
              Bool.false_eq_true, if_false, if_true]
            exact fspec_length rest (n + 1) fg bg eff
    · simp only [fstringSpecCells, hf, Bool.false_eq_true, if_false,
        List.length_cons]
      rw [fspec_length rest n fg bg eff]

theorem fstrFillN_spec :
    ∀ (n : Nat) (st : FSt), 0 ≤ st.ptr →
      (fstrFillN n st).cells =
        overwriteFrom st.cells st.ptr.toNat
          (List.replicate n ⟨32, st.eff, st.fg, st.bg⟩) ∧
      (fstrFillN n st).trace = st.trace ++ traceRange st.ptr n
  | 0, st, _ => by simp [fstrFillN, overwriteFrom, traceRange]
  | n + 1, st, hptr => by
    have ih := fstrFillN_spec n
      ⟨st.cells.set st.ptr.toNat ⟨32, st.eff, st.fg, st.bg⟩,
        st.trace ++ [st.ptr], st.ptr + 1, st.width - 1, st.fg, st.bg, st.eff⟩
      (by show (0 : Int) ≤ st.ptr + 1; omega)
    dsimp only at ih
    rw [fstrFillN]
    refine ⟨?_, ?_⟩
    · rw [ih.1]
      have hpt : (st.ptr + 1).toNat = st.ptr.toNat + 1 := by omega
      rw [hpt, List.replicate_succ]
      rfl
    · rw [ih.2]
      rw [traceRange]
      simp [List.append_assoc]

theorem fstr_loop_spec :
    ∀ (s : List Nat) (st : FSt), 0 ≤ st.width → 0 ≤ st.ptr →
      (fstrFillN (fstrChars s st).width.toNat (fstrChars s st)).cells =
        overwriteFrom st.cells st.ptr.toNat
          (fstringSpecCells st.width.toNat s st.fg st.bg st.eff) ∧
      (fstrFillN (fstrChars s st).width.toNat (fstrChars s st)).trace =
        st.trace ++ traceRange st.ptr st.width.toNat
  | [], st, _, hp => by
    rw [show fstrChars [] st = st from rfl, fspec_nil]
    exact fstrFillN_spec st.width.toNat st hp
  | c :: rest, st, hw, hp => by
    by_cases h0 : st.width = 0
    · rw [fstrChars, if_pos h0, h0]
      simp [fstrFillN, overwriteFrom, traceRange, fstringSpecCells]
    · obtain ⟨m, hm⟩ : ∃ m, st.width.toNat = m + 1 :=
        ⟨st.width.toNat - 1, by omega⟩
      rw [fstrChars, if_neg h0]
      by_cases hf : isU32Format c = true
      · rw [if_pos hf]
        by_cases he : isEffectV c = true
        · rw [if_pos he]
          have ih := fstr_loop_spec rest
            ⟨st.cells, st.trace, st.ptr, st.width, st.fg, st.bg, getU32Val c⟩
            hw hp
          dsimp only at ih
          rw [ih.1, ih.2, hm]
          simp [fstringSpecCells, hf, he]
        · rw [if_neg he]
          by_cases hcf : isColorFgV c = true
          · rw [if_pos hcf]
            have ih := fstr_loop_spec rest
              ⟨st.cells, st.trace, st.ptr, st.width, getU32Val c, st.bg, st.eff⟩
              hw hp
            dsimp only at ih
            rw [ih.1, ih.2, hm]
            simp [fstringSpecCells, hf, he, hcf]
          · rw [if_neg hcf]
            by_cases hcb : isColorBgV c = true
            · rw [if_pos hcb]
              have ih := fstr_loop_spec rest
                ⟨st.cells, st.trace, st.ptr, st.width, st.fg, getU32Val c,
                  st.eff⟩ hw hp
              dsimp only at ih
              rw [ih.1, ih.2, hm]
              simp [fstringSpecCells, hf, he, hcf, hcb]
            · rw [if_neg hcb]
              have ih := fstr_loop_spec rest st hw hp
              rw [ih.1, ih.2, hm]
              simp [fstringSpecCells, hf, he, hcf, hcb]
      · rw [if_neg hf]
        have ih := fstr_loop_spec rest
          ⟨st.cells.set st.ptr.toNat ⟨c, st.eff, st.fg, st.bg⟩,
            st.trace ++ [st.ptr], st.ptr + 1, st.width - 1, st.fg, st.bg,
            st.eff⟩
          (by show (0 : Int) ≤ st.width - 1; omega)
          (by show (0 : Int) ≤ st.ptr + 1; omega)
        dsimp only at ih
        rw [ih.1, ih.2]
        have h1 : (st.ptr + 1).toNat = st.ptr.toNat + 1 := by omega
        have h2 : (st.width - 1).toNat = m := by omega
        rw [h1, h2, hm]
        simp only [fstringSpecCells, hf, Bool.false_eq_true, if_false]
        refine ⟨rfl, ?_⟩
        rw [traceRange]
        simp [List.append_assoc]

/-- C7: for an in-bounds (y,x) and a nonnegative width, addFString first
caps the width by the distance to the right edge, then realises exactly
the cell sequence described by the spec — sentinels only update the
running effect/fg/bg, plain codepoints fill consecutive cells, the
leftover width is space-filled with the running style — over the
consecutive framebuffer indices starting at y*w+x; and the spec's
concrete example produces {A,0,palette1,bg0}, {B,Bold,palette1,bg0},
{space,Bold,palette1,bg0}. -/
theorem addFString_formatted :
    (∀ (g : Grid) (y x : Int) (s : List Nat) (width0 : Int),
      0 ≤ x → x < g.w → 0 ≤ y → y < g.h → 0 ≤ width0 →
      (addFString g y x s width0).cells =
        overwriteFrom g.cells ((y * g.w + x).toNat)
          (fstringSpecCells (min width0 (g.w - x)).toNat s g.defFg g.defBg 0) ∧
      (fstringSpecCells (min width0 (g.w - x)).toNat s g.defFg g.defBg
          0).length = (min width0 (g.w - x)).toNat ∧
      (addFStringT g y x s width0).2 =
        traceRange (y * g.w + x) (min width0 (g.w - x)).toNat) ∧
    ((addFString (mkGrid 3 1) 0 0 [buildColorFg 1, 65, buildEffect kBold, 66]
        3).cells =
      [⟨65, 0, 1, 0⟩, ⟨66, kBold, 1, 0⟩, ⟨32, kBold, 1, 0⟩]) := by
  refine ⟨fun g y x s width0 hx hxw hy hyh hw0 => ?_, by decide⟩
  have hb : inBoundsB g y x = true := by
    simp only [inBoundsB, Bool.and_eq_true, decide_eq_true_eq]
    omega
  have hspec := fstr_loop_spec s
    ⟨g.cells, [], y * g.w + x, min width0 (g.w - x), g.defFg, g.defBg, 0⟩
    (by show (0 : Int) ≤ min width0 (g.w - x); exact le_min hw0 (by omega))
    (by show (0 : Int) ≤ y * g.w + x
        have := mul_nonneg hy (by omega : (0 : Int) ≤ g.w)
        omega)
  dsimp only at hspec
  refine ⟨?_, fspec_length s (min width0 (g.w - x)).toNat g.defFg g.defBg 0, ?_⟩
  · show (addFStringT g y x s width0).1.cells = _
    unfold addFStringT
    rw [if_pos hb]
    dsimp only
    exact hspec.1
  · unfold addFStringT
    rw [if_pos hb]
    dsimp only
    rw [hspec.2]
    simp

/-- C7 witness: the inline-format example through the general statement,
on a 3×1 grid. -/
theorem addFString_formatted_witness :
    (addFString (mkGrid 3 1) 0 0 [buildColorFg 1, 65, buildEffect kBold, 66]
        3).cells =
      overwriteFrom (mkGrid 3 1).cells 0
        (fstringSpecCells 3 [buildColorFg 1, 65, buildEffect kBold, 66] 7 0 0) :=
  (addFString_formatted.1 (mkGrid 3 1) 0 0
      [buildColorFg 1, 65, buildEffect kBold, 66] 3
      (by decide) (by decide) (by decide) (by decide) (by decide)).1

/-! ## Claim C8: markdown conversion -/

theorem md_out_length :
    ∀ (s : List Nat) (e : Nat),
      (convertMarkdownGo s e).out.length +
        (convertMarkdownGo s e).pairs.length = s.length
  | [], _ => rfl
  | [_], _ => rfl
  | c1 :: c2 :: r, e => by
    simp only [convertMarkdownGo]
    split
    · have ih := md_out_length r (e ^^^ mdMask c1)
      simp only [List.length_cons]
      omega
    · have ih := md_out_length (c2 :: r) e
      simp only [List.length_cons] at ih ⊢
      omega

theorem md_identity :
    ∀ (s : List Nat), noMdPair s = true →
      ∀ e, (convertMarkdownGo s e).out = s
  | [], _, _ => rfl
  | [_], _, _ => rfl
  | c1 :: c2 :: r, h, e => by
    have h' := h
    simp only [noMdPair, Bool.and_eq_true, Bool.not_eq_eq_eq_not,
      Bool.not_true] at h'
    simp only [convertMarkdownGo, h'.1, Bool.false_eq_true, if_false]
    rw [md_identity (c2 :: r) h'.2 e]

theorem md_pairs_delim :
    ∀ (s : List Nat) (e c : Nat), c ∈ (convertMarkdownGo s e).pairs →
      isMdDelim c = true
  | [], _, _, h => by simp [convertMarkdownGo] at h
  | [_], _, _, h => by simp [convertMarkdownGo] at h
  | c1 :: c2 :: r, e, c, h => by
    simp only [convertMarkdownGo] at h
    rcases hp : (isMdDelim c1 && c1 = c2) with _ | _
    · rw [hp] at h
      simp only [Bool.false_eq_true, if_false] at h
      exact md_pairs_delim (c2 :: r) e c h
    · rw [hp] at h
      simp only [if_true, List.mem_cons] at h
      rcases h with h | h
      · subst h
        exact (Bool.and_eq_true _ _ |>.mp hp).1
      · exact md_pairs_delim r (e ^^^ mdMask c1) c h

theorem md_eff_xorMasks :
    ∀ (s : List Nat) (e : Nat),
      (convertMarkdownGo s e).eff = e ^^^ xorMasks (convertMarkdownGo s e).pairs
  | [], e => by simp [convertMarkdownGo, xorMasks]
  | [_], e => by simp [convertMarkdownGo, xorMasks]
  | c1 :: c2 :: r, e => by
    simp only [convertMarkdownGo]
    split
    · have ih := md_eff_xorMasks r (e ^^^ mdMask c1)
      simp only [xorMasks, List.foldr_cons] at ih ⊢
      rw [ih, Nat.xor_assoc]
    · exact md_eff_xorMasks (c2 :: r) e

theorem natXorLeftComm (a b c : Nat) : a ^^^ (b ^^^ c) = b ^^^ (a ^^^ c) := by
  rw [← Nat.xor_assoc, Nat.xor_comm a b, Nat.xor_assoc]

theorem parityBit_flip (n m : Nat) :
    m ^^^ parityBit n m = parityBit (n + 1) m := by
  unfold parityBit
  by_cases h : n % 2 = 0
  · have h2 : ¬ ((n + 1) % 2 = 0) := by omega
    simp [h, h2]
  · have h2 : (n + 1) % 2 = 0 := by omega
    simp [h, h2]

theorem xorMasks_parity :
    ∀ l : List Nat, (∀ c ∈ l, isMdDelim c = true) →
      xorMasks l =
        parityBit (l.count 42) kBold ^^^ (parityBit (l.count 47) kItalic ^^^
          (parityBit (l.count 95) kUnderline ^^^
            parityBit (l.count 45) kCrossedOut)) := by
  intro l
  induction l with
  | nil => intro _; simp [xorMasks, parityBit]
  | cons c t ih =>
    intro hall
    have hc : c = 42 ∨ c = 47 ∨ c = 95 ∨ c = 45 := by
      have := hall c (List.mem_cons_self c t)
      simp only [isMdDelim, Bool.or_eq_true, decide_eq_true_eq] at this
      tauto
    have ht := ih (fun d hd => hall d (List.mem_cons_of_mem c hd))
    have hstep : xorMasks (c :: t) = mdMask c ^^^ xorMasks t := rfl
    rcases hc with hc | hc | hc | hc <;> subst hc <;>
      simp only [hstep, ht, List.count_cons, mdMask] <;> norm_num
    · rw [← Nat.xor_assoc, parityBit_flip]
    · rw [natXorLeftComm (kItalic)]
      rw [← Nat.xor_assoc kItalic, parityBit_flip]
    · rw [natXorLeftComm (kUnderline), natXorLeftComm (kUnderline)]
      rw [← Nat.xor_assoc kUnderline, parityBit_flip]
    · rw [natXorLeftComm (kCrossedOut), natXorLeftComm (kCrossedOut),
        natXorLeftComm (kCrossedOut), parityBit_flip]

/-- C8: convertMarkdown replaces each adjacent identical delimiter pair
with one inline-effect sentinel carrying the XOR-toggled running effect
(so the output shrinks by the number of pairs), it is the identity (hence
an involution) on strings without such a pair, and when every delimiter
type occurs in an even number of pairs the running effect is zero after
the last pair. -/
theorem convertMarkdown_properties :
    (∀ (c : Nat) (rest : List Nat) (e : Nat), isMdDelim c = true →
      convertMarkdownGo (c :: c :: rest) e =
        ⟨buildEffect (e ^^^ mdMask c) ::
            (convertMarkdownGo rest (e ^^^ mdMask c)).out,
          (convertMarkdownGo rest (e ^^^ mdMask c)).eff,
          c :: (convertMarkdownGo rest (e ^^^ mdMask c)).pairs⟩) ∧
    (∀ (s : List Nat) (e : Nat),
      (convertMarkdownGo s e).out.length +
        (convertMarkdownGo s e).pairs.length = s.length) ∧
    (∀ s : List Nat, noMdPair s = true →
      convertMarkdown s = s ∧ convertMarkdown (convertMarkdown s) = s) ∧
    (∀ s : List Nat,
      (convertMarkdownGo s 0).pairs.count 42 % 2 = 0 →
      (convertMarkdownGo s 0).pairs.count 47 % 2 = 0 →
      (convertMarkdownGo s 0).pairs.count 95 % 2 = 0 →
      (convertMarkdownGo s 0).pairs.count 45 % 2 = 0 →
      (convertMarkdownGo s 0).eff = 0) := by
  refine ⟨fun c rest e h => by simp [convertMarkdownGo, h],
    md_out_length, fun s h => ?_, fun s h42 h47 h95 h45 => ?_⟩
  · have h1 : convertMarkdown s = s := md_identity s h 0
    exact ⟨h1, by rw [h1, h1]⟩
  · have hd := md_pairs_delim s 0
    have he := md_eff_xorMasks s 0
    rw [xorMasks_parity _ (fun c hc => hd c hc)] at he
    rw [he]
    simp [parityBit, h42, h47, h95, h45]

/-- C8 witness: the string "a*b" has no pair and is untouched; the string
"**b**" balances its two Bold pairs so the final running effect is 0. -/
theorem convertMarkdown_properties_witness :
    convertMarkdownGo (42 :: 42 :: [98]) 0 =
      ⟨buildEffect (0 ^^^ mdMask 42) :: (convertMarkdownGo [98] (0 ^^^ mdMask 42)).out,
        (convertMarkdownGo [98] (0 ^^^ mdMask 42)).eff,
        42 :: (convertMarkdownGo [98] (0 ^^^ mdMask 42)).pairs⟩ ∧
    convertMarkdown [97, 42, 98] = [97, 42, 98] ∧
    (convertMarkdownGo [42, 42, 98, 42, 42] 0).eff = 0 :=
  ⟨convertMarkdown_properties.1 42 [98] 0 (by decide),
   (convertMarkdown_properties.2.2.1 [97, 42, 98] (by decide)).1,
   convertMarkdown_properties.2.2.2 [42, 42, 98, 42, 42]
     (by decide) (by decide) (by decide) (by decide)⟩

end Termui

namespace Csys

/-! ## Claim C9: termination status -/

theorem runForever_exited (cbks : List Int) (st : LoopState)
    (ops : List LoopOp) (h : st.exitRequested = true) :
    runForever cbks st ops = some st.exitStatus := by
  cases ops <;> simp [runForever, h]

/-- C9: the exit status returned by runForever is the one captured by the
first requestTermination; once the flag is set, later calls to
setRequestTermination change nothing; an unhandled signal read from the
signal-fd terminates the loop with the signal number as status. -/
theorem runForever_exit_status :
    (∀ (st : LoopState) (status : Int), st.exitRequested = true →
      setRequestTermination st status = st) ∧
    (∀ (cbks : List Int) (st : LoopState) (status : Int) (ops : List LoopOp),
      st.exitRequested = false →
      runForever cbks (requestTermination st status) ops = some status) ∧
    (∀ (cbks : List Int) (st : LoopState) (signo : Int) (ops : List LoopOp),
      st.exitRequested = false → signo ∉ cbks →
      runForever cbks (signalDispatch cbks st signo) ops = some signo) := by
  refine ⟨fun st status h => by simp [setRequestTermination, h],
    fun cbks st status ops h => ?_, fun cbks st signo ops h hnc => ?_⟩
  · have : requestTermination st status = ⟨true, status⟩ := by
      simp [requestTermination, setRequestTermination, h]
    rw [this, runForever_exited cbks ⟨true, status⟩ ops rfl]
  · have : signalDispatch cbks st signo = ⟨true, signo⟩ := by
      simp [signalDispatch, setRequestTermination, h, hnc]
    rw [this, runForever_exited cbks ⟨true, signo⟩ ops rfl]

/-- C9 witness: a first requestTermination(5) wins over a later
requestTermination(9) in the schedule, and the unhandled signal 15
terminates with status 15 while signal 2 has a callback. -/
theorem runForever_exit_status_witness :
    runForever [2] (requestTermination ⟨false, 0⟩ 5) [.reqTerm 9] = some 5 ∧
    runForever [2] (signalDispatch [2] ⟨false, 0⟩ 15) [] = some 15 :=
  ⟨runForever_exit_status.2.1 [2] ⟨false, 0⟩ 5 [.reqTerm 9] rfl,
   runForever_exit_status.2.2 [2] ⟨false, 0⟩ 15 [] rfl (by decide)⟩

/-! ## Claim C10: Poll::add failure atomicity -/

/-- C10: adding an fd already monitored fails, a kernel registration
failure after the map insertion is rolled back by erasing the new entry,
and on every failing path of Poll::add the monitored-fd map is exactly
what it was before the call. -/
theorem pollAdd_failure_preserves_map :
    (∀ (st : PollState) (fd : Int) (k : Bool), fd ∈ st.fds →
      (pollAdd st fd true k).1.isSome = true ∧ (pollAdd st fd true k).2 = st) ∧
    (∀ (st : PollState) (fd : Int), fd ∉ st.fds →
      (pollAdd st fd true false).1.isSome = true) ∧
    (∀ (st : PollState) (fd : Int) (v k : Bool),
      (pollAdd st fd v k).1.isSome = true → (pollAdd st fd v k).2 = st) := by
  refine ⟨fun st fd k h => by simp [pollAdd, h], fun st fd h => by simp [pollAdd, h],
    fun st fd v k h => ?_⟩
  cases v with
  | false => simp [pollAdd]
  | true =>
    by_cases hmem : fd ∈ st.fds
    · simp [pollAdd, hmem]
    · cases k with
      | true => simp [pollAdd, hmem] at h
      | false =>
        simp only [pollAdd, hmem, Bool.not_true, Bool.false_eq_true,
          if_false, if_neg hmem]
        show PollState.mk ((st.fds ++ [fd]).erase fd) = st
        rw [List.erase_append_right _ hmem, List.erase_cons_head]
        simp

/-- C10 witness: adding fd 3 twice fails and keeps the map, and a kernel
failure adding fd 7 to an empty map leaves the map empty. -/
theorem pollAdd_failure_preserves_map_witness :
    ((pollAdd ⟨[3]⟩ 3 true true).1.isSome = true ∧
      (pollAdd ⟨[3]⟩ 3 true true).2 = ⟨[3]⟩) ∧
    (pollAdd ⟨[]⟩ 7 true false).2 = ⟨[]⟩ :=
  ⟨pollAdd_failure_preserves_map.1 ⟨[3]⟩ 3 true (by decide),
   pollAdd_failure_preserves_map.2.2 ⟨[]⟩ 7 true false (by decide)⟩

end Csys
